import Mathlib

/-!
Verification of the mintupdate core classes (Classes.py and
flatpak-update-worker.py) against their natural-language specification.

The Python sources are shallowly embedded: strings are Lean `String`
(Python text compared by code point), Python dicts are association lists,
Python sets are insertion-ordered duplicate-free lists, machine-free Python
integers are `Int`/`Nat`, and fallible code returns `Option`.  External
collaborators (the `datetime` module, the apt history log, GSettings and
the Flatpak client library) are passed in as explicit environment records.
-/

namespace MintUpdate

/-! ## Character-list utilities modelling Python `str` primitives -/

/-- Python `s.startswith(p)` on explicit character lists. -/
def leadsWith : List Char → List Char → Bool
  | [], _ => true
  | _ :: _, [] => false
  | a :: as, b :: bs => a == b && leadsWith as bs

/-- Python `s.endswith(p)` on explicit character lists. -/
def trailsWith (p l : List Char) : Bool := leadsWith p.reverse l.reverse

/-- Python `p in s` (substring containment) on explicit character lists. -/
def hasSub (p : List Char) : List Char → Bool
  | [] => p.isEmpty
  | c :: rest => leadsWith p (c :: rest) || hasSub p rest

/-- Python string `<` : lexicographic comparison by code point. -/
def listCharLt : List Char → List Char → Bool
  | [], [] => false
  | [], _ :: _ => true
  | _ :: _, [] => false
  | a :: as, b :: bs => if a < b then true else if a = b then listCharLt as bs else false

/-- Python `str.startswith` on `String`. -/
def strLeads (p s : String) : Bool := leadsWith p.data s.data

/-- Python `str.endswith` on `String`. -/
def strTrails (p s : String) : Bool := trailsWith p.data s.data

/-- Python `sub in s` on `String`. -/
def strHas (sub s : String) : Bool := hasSub sub.data s.data

/-- Python `a > b` on strings (lexicographic by code point). -/
def strGt (a b : String) : Bool := listCharLt b.data a.data

/-- Python `min(a, b)` on strings: `a` when `a <= b`, else `b`. -/
def strMin (a b : String) : String := if listCharLt b.data a.data then b else a

/-!
Python `str.split(sep)` for a non-empty separator, written as a
character-by-character scanner.  `skip` counts separator characters still
to be consumed after a match, `acc` holds the current group in reverse.
-/

/-- Worker for `chSplit`; structural recursion on the scanned list. -/
def chSplitGo (sep : List Char) : Nat → List Char → List Char → List (List Char)
  | _ + 1, acc, [] => [acc.reverse]
  | skip + 1, acc, _ :: rest => chSplitGo sep skip acc rest
  | 0, acc, [] => [acc.reverse]
  | 0, acc, c :: rest =>
    if leadsWith sep (c :: rest) then
      acc.reverse :: chSplitGo sep (sep.length - 1) [] rest
    else
      chSplitGo sep 0 (c :: acc) rest

/-- Python `s.split(sep)` for a non-empty separator `sep`. -/
def chSplit (sep : List Char) (s : List Char) : List (List Char) :=
  chSplitGo sep 0 [] s

/-! ## Decimal integers: Python `str(n)` and `int(s)` for non-negative values -/

/-- Decimal digits of `n`, least significant first, with explicit fuel
(adequate whenever `n ≤ fuel`); mirrors repeated divmod by 10. -/
def natDigitsF : Nat → Nat → List Nat
  | 0, _ => []
  | _ + 1, 0 => []
  | fuel + 1, n + 1 => ((n + 1) % 10) :: natDigitsF fuel ((n + 1) / 10)

/-- Python `str(n)` for a non-negative integer, as a character list. -/
def pyStrOfNatData (n : Nat) : List Char :=
  if n = 0 then ['0']
  else ((natDigitsF n n).reverse.map fun d => Char.ofNat (48 + d))

/-- Numeric value of a digit-character list, most significant first. -/
def digitsVal (l : List Char) : Nat :=
  l.foldl (fun a c => a * 10 + (c.toNat - 48)) 0

/-- Python `int(s)` restricted to plain decimal numerals (the only inputs
the wire format produces); anything else raises, modelled as `none`. -/
def pyIntData (l : List Char) : Option Nat :=
  if !l.isEmpty && l.all Char.isDigit then some (digitsVal l) else none

/-! ## Wire-format escaping

`Update.serialize` emits the record through
`output_string.encode("ascii", "xmlcharrefreplace")`: every character
above U+007F is replaced by a decimal character reference.
`Update.parse` first applies `html.unescape`. -/

/-- Python `s.encode("ascii", "xmlcharrefreplace")`: keep characters up
to code point 127, replace others by a decimal reference. -/
def pyEscape : List Char → List Char
  | [] => []
  | c :: rest =>
    (if c.toNat ≤ 127 then [c]
     else '&' :: '#' :: (pyStrOfNatData c.toNat ++ [';'])) ++ pyEscape rest

/-- Modelled from the spec: the decimal character references handled by
the stdlib `html.unescape` (the only form `pyEscape` emits).  On a list
beginning after an ampersand, returns the decoded character and the
number of characters consumed, or `none` when no reference starts here. -/
def ampRef (l : List Char) : Option (Char × Nat) :=
  match l with
  | c :: rest =>
    if c = '#' then
      if (rest.takeWhile Char.isDigit).isEmpty then none
      else if (rest.drop (rest.takeWhile Char.isDigit).length).head? = some ';' then
        some (Char.ofNat (digitsVal (rest.takeWhile Char.isDigit)),
          (rest.takeWhile Char.isDigit).length + 2)
      else none
    else none
  | [] => none

/-- Modelled from the spec: stdlib `html.unescape` restricted to decimal
character references; unrecognized ampersand sequences are kept verbatim,
as in Python.  `skip` counts consumed reference characters. -/
def pyUnescapeGo : Nat → List Char → List Char
  | _ + 1, [] => []
  | skip + 1, _ :: rest => pyUnescapeGo skip rest
  | 0, [] => []
  | 0, c :: rest =>
    if c = '&' then
      match ampRef rest with
      | some (ch, consumed) => ch :: pyUnescapeGo consumed rest
      | none => '&' :: pyUnescapeGo 0 rest
    else c :: pyUnescapeGo 0 rest

/-- `html.unescape` on a character list. -/
def pyUnescape (l : List Char) : List Char := pyUnescapeGo 0 l

/-! ## Raw package records (apt collaborator output) -/

/-- One entry of `package.candidate.origins`. -/
structure PkgOrigin where
  origin : String
  site : String
  archive : String
  label : String
  component : String
deriving DecidableEq

/-- The `RawPackageRecord` read off an apt package object: the fields of
`package` / `package.candidate` consulted by `Update.__init__` and
`Update.add_package`. -/
structure AptPackage where
  name : String
  source_name : String
  source_version : String
  candidate_version : String
  installed_version : Option String
  size : Nat
  section_ : String
  raw_description : String
  description : String
  origins : List PkgOrigin
deriving DecidableEq

/-! ## The `Update` class (logical update for native packages) -/

/-- The attributes of `Update` (Classes.py).  `source_packages` is a
Python set, modelled as an insertion-ordered duplicate-free list;
`main_package_name` can be `None` (checked by `add_package`), modelled as
`Option`.  `site`/`origin`/`type` are unassigned on some paths in the
source; those paths are modelled with `""`. -/
structure Update where
  display_name : String
  source_name : String
  real_source_name : String
  source_packages : List String
  main_package_name : Option String
  package_names : List String
  new_version : String
  old_version : String
  size : Nat
  type : String
  origin : String
  short_description : String
  description : String
  site : String
  archive : String
deriving DecidableEq

/-- Python `set.add` on the insertion-ordered list model. -/
def setAdd (l : List String) (x : String) : List String :=
  if x ∈ l then l else l ++ [x]

/-- The origin loop of `Update.__init__` (lines 146-169): each iteration
stores `origin.origin` (folded to `"ubuntu"`/`"debian"`; `LP-PPA` origins
kept verbatim), `site` and `archive`, then breaks with a security or
unstable classification on the first matching origin.  `src` is the
`source_name` parameter of the constructor (possibly `None`). -/
def originScan (src : Option String) :
    String → String → String → String → List PkgOrigin → String × String × String × String
  | ty, origin, site, archive, [] => (ty, origin, site, archive)
  | _, _, _, _, o :: rest =>
    let origin1 :=
      if o.origin = "Ubuntu" then "ubuntu"
      else if o.origin = "Debian" then "debian"
      else if strLeads "LP-PPA" o.origin then o.origin
      else o.origin
    if o.origin = "Ubuntu" ∧ strHas "-security" o.archive then
      ("security", origin1, o.site, o.archive)
    else if o.origin = "Debian" ∧ strHas "-Security" o.label then
      ("security", origin1, o.site, o.archive)
    else if src = some "firefox" ∨ src = some "thunderbird" ∨ src = some "chromium" then
      ("security", origin1, o.site, o.archive)
    else if o.origin = "linuxmint" ∧ o.component = "romeo" then
      ("unstable", origin1, o.site, o.archive)
    else originScan src "package" origin1 o.site o.archive rest

/-- The final kernel check of `Update.__init__` (lines 170-175); the
`self.package_name` attribute it reads equals `package.name`. -/
def kernelCheck (pkg : AptPackage) : Prop :=
  pkg.section_ = "kernel" ∨ strLeads "linux-headers" pkg.name = true ∨
    pkg.source_name ∈ ["linux", "linux-kernel", "linux-signed", "linux-meta"]

instance (pkg : AptPackage) : Decidable (kernelCheck pkg) :=
  inferInstanceAs (Decidable (pkg.section_ = "kernel" ∨ strLeads "linux-headers" pkg.name = true ∨
    pkg.source_name ∈ ["linux", "linux-kernel", "linux-signed", "linux-meta"]))

/-- `Update.__init__` with a package object (lines 119-176).  When
candidate and installed versions are equal the type/origin attributes are
never assigned in the source; that path is modelled with `""`. -/
def Update.fromPackage (pkg : AptPackage) (source_name : Option String) : Update :=
  let old_version := match pkg.installed_version with | none => "" | some v => v
  let src := match source_name with | some s => s | none => pkg.source_name
  let base : Update :=
    { display_name := src
      source_name := src
      real_source_name := pkg.source_name
      source_packages := [pkg.source_name ++ "=" ++ pkg.source_version]
      main_package_name := some pkg.name
      package_names := [pkg.name]
      new_version := pkg.candidate_version
      old_version := old_version
      size := pkg.size
      type := ""
      origin := ""
      short_description := pkg.raw_description
      description := pkg.description
      site := ""
      archive := "" }
  if pkg.candidate_version ≠ old_version then
    let scanned := originScan source_name "package" "" "" "" pkg.origins
    { base with
        type := if kernelCheck pkg then "kernel" else scanned.1
        origin := scanned.2.1
        site := scanned.2.2.1
        archive := scanned.2.2.2 }
  else base

/-- `Update.overwrite_main_package` (lines 218-221). -/
def Update.overwrite_main_package (u : Update) (pkg : AptPackage) : Update :=
  { u with
      description := pkg.description
      short_description := pkg.raw_description
      main_package_name := some pkg.name }

/-- Suffix list of `Update.add_package` rule b. -/
def mainSuffixes : List String :=
  ["-dev", "-dbg", "-common", "-core", "-data", "-doc", ":i386", ":amd64"]

/-- The current main package name as a string; in the branches that read
it the name is never `None` (the first rule catches that case). -/
def Update.mainName (u : Update) : String := u.main_package_name.getD ""

/-- `Update.add_package` (lines 180-216): bookkeeping plus the
main-package replacement rules.  Rules b-d only run under the source's
`main_package_name != source_name` guard. -/
def Update.add_package (u0 : Update) (pkg : AptPackage) : Update :=
  let u := { u0 with
      package_names := u0.package_names ++ [pkg.name]
      source_packages := setAdd u0.source_packages (pkg.source_name ++ "=" ++ pkg.source_version)
      size := u0.size + pkg.size }
  if u.main_package_name = none ∨ pkg.name = u.source_name then
    u.overwrite_main_package pkg
  else if u.main_package_name ≠ some u.source_name then
    if mainSuffixes.any (fun suf => strTrails suf u.mainName && !strTrails suf pkg.name) then
      u.overwrite_main_package pkg
    else if ["lib", "gir1.2"].any (fun p => strLeads p u.mainName && !strLeads p pkg.name) then
      u.overwrite_main_package pkg
    else if ["-locale-", "-l10n-", "-help-"].any
        (fun kw => strHas kw u.mainName && !strHas kw pkg.name) then
      u.overwrite_main_package pkg
    else u
  else u

/-! ## The `KernelVersion` class -/

/-- Python `str.isnumeric` for the ASCII version strings at hand. -/
def pyIsNumeric (l : List Char) : Bool := !l.isEmpty && l.all Char.isDigit

/-- Zero-pad a field on the left to width 3 (`"0" * (3 - len) + element`);
longer fields are kept unchanged. -/
def padField (l : List Char) : List Char := List.replicate (3 - l.length) '0' ++ l

/-- `version.replace("-", ".").split(".")` from `KernelVersion.__init__`. -/
def kvElements (version : String) : List (List Char) :=
  chSplit ['.'] (version.data.map fun c => if c = '-' then '.' else c)

/-- The rc suffix search of `KernelVersion.__init__`: the first element
starting with `rc`, else `"z"`. -/
def kvSuffixMark (version : String) : List Char :=
  match (kvElements version).find? (fun x => leadsWith ['r', 'c'] x) with
  | some x => x
  | none => ['z']

/-- Numeric elements, zero-padded, then extended with `"000"` entries
until at least four fields exist (the `while` loop). -/
def kvPadded (version : String) : List (List Char) :=
  let nums := ((kvElements version).filter pyIsNumeric).map padField
  nums ++ List.replicate (4 - nums.length) (List.replicate 3 '0')

/-- `x[:1].lstrip("0") + x[1:]` with `field_length = 3`. -/
def kvCompact (x : List Char) : List Char :=
  (x.take 1).dropWhile (fun c => c = '0') ++ x.drop 1

/-- The final `version_id` field sequence of `KernelVersion.__init__`. -/
def kvVersionId (version : String) : List (List Char) :=
  let v := kvPadded version
  if v.length = 4 then
    v ++ [(v.map kvCompact).flatten ++ kvSuffixMark version]
  else if 4 < v.length ∧ (v.getD 4 []).length = 6 then
    v.set 4 (v.getD 4 [] ++ kvSuffixMark version)
  else v

/-- Python `<` on two `version_id` lists (list-of-strings comparison). -/
def keyLt : List (List Char) → List (List Char) → Bool
  | [], [] => false
  | [], _ :: _ => true
  | _ :: _, [] => false
  | a :: as, b :: bs => if listCharLt a b then true else if a = b then keyLt as bs else false

/-! ## The `UpdateTracker` class -/

/-- One value of the tracker's `updates` mapping:
`{"type": ..., "since": ..., "days": ...}`. -/
structure TrackedRecord where
  type : String
  since : String
  days : Nat
deriving DecidableEq

/-- Python dict lookup on the association-list model. -/
def lookupRec : List (String × TrackedRecord) → String → Option TrackedRecord
  | [], _ => none
  | (k, v) :: rest, key => if k = key then some v else lookupRec rest key

/-- Python dict store `d[key] = v` on the association-list model. -/
def setRec : List (String × TrackedRecord) → String → TrackedRecord → List (String × TrackedRecord)
  | [], key, v => [(key, v)]
  | (k, w) :: rest, key, v => if k = key then (key, v) :: rest else (k, w) :: setRec rest key v

/-- The fields of a logical update that `UpdateTracker.update` reads. -/
structure ObservedUpdate where
  real_source_name : String
  type : String
deriving DecidableEq

/-- The mutable state of an `UpdateTracker`: the persisted dict
(`updates` / `version` / `checked` / `notified` flattened into fields)
plus the in-memory attributes set in `__init__`. -/
structure UpdateTracker where
  updates : List (String × TrackedRecord)
  version : Int
  checked : String
  notified : String
  refreshed_update_names : List String
  today : String
  max_days : Nat
  oldest_since_date : String
  active : Bool
  security_only : Bool
  test_mode : Bool
deriving DecidableEq

/-- `UpdateTracker.update` (lines 350-364): record the observation of one
logical update. -/
def UpdateTracker.update (t : UpdateTracker) (u : ObservedUpdate) : UpdateTracker :=
  let t1 := { t with refreshed_update_names := t.refreshed_update_names ++ [u.real_source_name] }
  let record : TrackedRecord :=
    match lookupRec t1.updates u.real_source_name with
    | none => { type := u.type, since := t1.today, days := 1 }
    | some r =>
      { r with
          type := u.type
          days := if strGt t1.today t1.checked then r.days + 1 else r.days }
  let t2 := { t1 with updates := setRec t1.updates u.real_source_name record }
  if u.type = "security" ∨ u.type = "kernel" ∨ t2.security_only = false then
    { t2 with
        max_days := max t2.max_days record.days
        oldest_since_date := strMin t2.oldest_since_date record.since }
  else t2

/-- The `days` counter currently recorded for `name`. -/
def UpdateTracker.daysOf (t : UpdateTracker) (name : String) : Option Nat :=
  (lookupRec t.updates name).map TrackedRecord.days

/-- The persisted tracker file contents once JSON decoding and the key
accesses of `_validate_tracker_data` have succeeded. -/
structure PersistedTracker where
  updates : List (String × TrackedRecord)
  version : Int
  checked : String
  notified : String
deriving DecidableEq

/-- `self.tracker_version` in `UpdateTracker.__init__`. -/
def trackerVersion : Int := 1

/-- The fresh state written by the exception handler of
`_initialize_tracker`. -/
def freshTracker (today : String) : PersistedTracker :=
  { updates := [], version := trackerVersion, checked := today, notified := today }

/-- `_initialize_tracker` together with `_validate_tracker_data`
(lines 323-348).  The argument is the result of opening and JSON-decoding
the state file: `none` when that raised (missing file, corrupt JSON,
missing keys, mistyped fields).  Every exception is caught, so the result
is total: the loaded state with the `active` flag, or a fresh state. -/
def initializeTracker (load : Option PersistedTracker) (today : String) :
    PersistedTracker × Bool :=
  match load with
  | none => (freshTracker today, true)
  | some d =>
    if d.version < trackerVersion ∨ strGt d.checked today = true ∨ strGt d.notified today = true then
      (freshTracker today, true)
    else (d, decide (d.checked ≠ today))

/-! ### `notify` and its collaborators -/

/-- External collaborators of `UpdateTracker.notify`: the `datetime`
computations on non-empty / non-zero inputs and the apt history-log scan
(`get_latest_apt_upgrade`; `none` models both "no log" and "no upgrade
block found"). -/
structure DateEnv where
  days_since : String → String → Int
  days_since_ts : Int → Int
  latest_apt_upgrade : Option String

/-- `UpdateTracker.get_days_since_date` (lines 366-371). -/
def get_days_since_date (env : DateEnv) (date_str date_format : String) : Int :=
  if date_str ≠ "" then env.days_since date_str date_format else 999

/-- `UpdateTracker.get_days_since_timestamp` (lines 373-378). -/
def get_days_since_timestamp (env : DateEnv) (timestamp : Int) : Int :=
  if timestamp ≠ 0 then env.days_since_ts timestamp else 999

/-- The GSettings keys read by `UpdateTracker.notify`. -/
structure TrackerSettings where
  tracker_disable : Bool
  tracker_days_between : Int
  tracker_max_days : Int
  tracker_max_age : Int
  tracker_grace_period : Int
  install_last_run : Int
deriving DecidableEq

/-- The rate-limit test of `notify` (lines 417-424): the age of the last
notification is below the configured interval. -/
def UpdateTracker.rate_limited (t : UpdateTracker) (env : DateEnv) (s : TrackerSettings) : Bool :=
  get_days_since_date env t.notified "%Y.%m.%d" < s.tracker_days_between

/-- The manual-run suppression test of `notify` (lines 438-445): the
update button was pressed within the grace period. -/
def manualSuppressed (env : DateEnv) (s : TrackerSettings) : Bool :=
  get_days_since_timestamp env s.install_last_run ≤ s.tracker_grace_period

/-- `UpdateTracker.notify` (lines 412-463).  Returns the decision and the
updated tracker (`notified` stamped with today on success). -/
def UpdateTracker.notify (t : UpdateTracker) (env : DateEnv) (s : TrackerSettings) :
    Bool × UpdateTracker :=
  if s.tracker_disable then (false, t)
  else if t.rate_limited env s then (false, t)
  else
    let needed0 : Bool :=
      if (t.max_days : Int) ≥ s.tracker_max_days then true
      else if get_days_since_date env t.oldest_since_date "%Y.%m.%d" ≥ s.tracker_max_age then
        true
      else false
    let needed : Bool :=
      if t.test_mode = false then
        if manualSuppressed env s then false
        else
          match env.latest_apt_upgrade with
          | some d =>
            if get_days_since_date env d "%Y-%m-%d" ≤ s.tracker_grace_period then false
            else needed0
          | none => needed0
      else needed0
    if needed then (true, { t with notified := t.today }) else (false, t)

/-! ## `Update.serialize` and `Update.parse` (wire format) -/

/-- The three-hash field separator of the wire format. -/
def sep3 : List Char := ['#', '#', '#']

/-- The `", "` separator used by `join`/`split` for the collections. -/
def sepComma : List Char := [',', ' ']

/-- The end-of-line sentinel appended by `serialize`. -/
def eolMark : List Char := ['-', '-', '-', 'E', 'O', 'L', '-', '-', '-']

/-- `", ".join(...)` on character lists. -/
def commaJoin : List (List Char) → List Char
  | [] => []
  | [e] => e
  | e :: es => e ++ sepComma ++ commaJoin es

/-- Concatenate fields, each preceded by the `###` separator (this is how
the format string of `serialize` lays the record out). -/
def sepCat : List (List Char) → List Char
  | [] => []
  | f :: fs => sep3 ++ f ++ sepCat fs

/-- The `%s`-rendering of the main package name: `None` prints as the
four characters `None`. -/
def mainNameRendered (u : Update) : List Char :=
  match u.main_package_name with
  | some m => m.data
  | none => ['N', 'o', 'n', 'e']

/-- The fifteen `%s` fields of `serialize`, in wire order. -/
def Update.wireFields (u : Update) : List (List Char) :=
  [u.display_name.data, u.source_name.data, u.real_source_name.data,
   commaJoin (u.source_packages.map String.data), mainNameRendered u,
   commaJoin (u.package_names.map String.data), u.new_version.data,
   u.old_version.data, pyStrOfNatData u.size, u.type.data, u.origin.data,
   u.short_description.data, u.description.data, u.site.data, u.archive.data]

/-- `Update.serialize` (lines 223-244): the text printed to the wire
(the `print` call's framing of the byte literal is I/O, not modelled;
the ascii/xmlcharrefreplace encoding is). -/
def Update.serialize (u : Update) : String :=
  ⟨pyEscape (sepCat u.wireFields ++ eolMark)⟩

/-- The field-unpacking tail of `Update.parse`: assign the fifteen
splits to the attributes, convert the size with `int(...)` and re-split
the two collections on `", "`. -/
def parseFields (v0 v1 v2 v3 v4 v5 v6 v7 v8 v9 v10 v11 v12 v13 v14 : List Char) :
    Option Update :=
  (pyIntData v8).map fun n =>
    { display_name := ⟨v0⟩, source_name := ⟨v1⟩, real_source_name := ⟨v2⟩
      source_packages := (chSplit sepComma v3).map fun l => ⟨l⟩
      main_package_name := some ⟨v4⟩
      package_names := (chSplit sepComma v5).map fun l => ⟨l⟩
      new_version := ⟨v6⟩, old_version := ⟨v7⟩, size := n
      type := ⟨v9⟩, origin := ⟨v10⟩
      short_description := ⟨v11⟩, description := ⟨v12⟩
      site := ⟨v13⟩, archive := ⟨v14⟩ }

/-- `Update.parse` (lines 246-271): `html.unescape`, split on `###`,
drop the text before the first separator, and unpack exactly fifteen
fields; a failed unpack or a non-numeric size raises, modelled as
`none`. -/
def Update.parse (s : String) : Option Update :=
  match chSplit sep3 (pyUnescape s.data) with
  | [_, v0, v1, v2, v3, v4, v5, v6, v7, v8, v9, v10, v11, v12, v13, v14] =>
    parseFields v0 v1 v2 v3 v4 v5 v6 v7 v8 v9 v10 v11 v12 v13 v14
  | _ => none

/-- Remove the trailing `---EOL---` sentinel from a serialized line. -/
def stripEol (s : String) : String := ⟨s.data.take (s.data.length - eolMark.length)⟩

/-! ## The Flatpak update worker -/

/-- Modelled from the spec: the opaque key-file manifest of a ref
(`GLib.KeyFile`), reduced to the capability the worker uses — group/key
string lookup and the group list. -/
structure KeyFile where
  entries : List ((String × String) × String)
  groups : List String
deriving DecidableEq

/-- `KeyFile.get_string(group, key)`; a missing key raises, modelled as
`none`. -/
def KeyFile.get_string (kf : KeyFile) (group key : String) : Option String :=
  (kf.entries.find? (fun e => e.1 = (group, key))).map (fun e => e.2)

/-- Modelled from the spec: a parsed Flatpak ref (kind/name/arch/branch). -/
structure FlatpakRef where
  kind : String
  name : String
  arch : String
  branch : String
deriving DecidableEq

/-- Modelled from the spec: `Flatpak.Ref.parse` — a ref string is
`kind/name/arch/branch` with kind `app` or `runtime`; anything else
raises, modelled as `none`. -/
def flatpakRefParse (s : String) : Option FlatpakRef :=
  match (chSplit ['/'] s.data).map (fun l => (⟨l⟩ : String)) with
  | [k, n, a, b] =>
    if (k = "app" ∨ k = "runtime") ∧ n ≠ "" ∧ a ≠ "" ∧ b ≠ "" then
      some { kind := k, name := n, arch := a, branch := b }
    else none
  | _ => none

/-- The fields of a `FlatpakUpdate` consulted by the worker's
parent/child logic: the parsed ref and the op metadata key-file. -/
structure WorkerUpdate where
  ref : FlatpakRef
  metadata : KeyFile
deriving DecidableEq

/-- `self.ref_name = ref.get_name()` from `FlatpakUpdate.__init__`. -/
def WorkerUpdate.ref_name (u : WorkerUpdate) : String := u.ref.name

/-- `self.flatpak_type` from `FlatpakUpdate.__init__` (lines 509-511):
`"app"` iff the ref's kind is app, else `"runtime"`. -/
def WorkerUpdate.flatpak_type (u : WorkerUpdate) : String :=
  if u.ref.kind = "app" then "app" else "runtime"

/-- `FlatpakUpdateWorker.is_base_package` (lines 241-253): the source
tests `name.startswith("app")` on the ref NAME, then compares the name
against the parsed `Runtime/runtime` manifest entry; any exception in the
second step yields `False`. -/
def is_base_package (u : WorkerUpdate) : Bool :=
  let name := u.ref_name
  if strLeads "app" name then true
  else
    match u.metadata.get_string "Runtime" "runtime" with
    | none => false
    | some rt =>
      match flatpakRefParse ("runtime/" ++ rt) with
      | none => false
      | some r => name == r.name

/-- Ref-name segment count: `len(ref.get_name().split("."))`, the
quantity compared by `cmp_ref_name` in `_process_fetch_task`. -/
def refSegments (name : String) : Nat := (chSplit ['.'] name.data).length

/-- Python string `<=`: not strictly greater. -/
def pyStrLe (a b : String) : Prop := listCharLt b.data a.data = false

instance : DecidableRel pyStrLe :=
  fun a b => inferInstanceAs (Decidable (listCharLt b.data a.data = false))

/-- The processing order of `_process_fetch_task` (lines 142-148) on the
operations' ref names: Python's stable `list.sort` is modelled by the
stable `List.insertionSort`; the list is sorted by segment count first
and then — as the outer, hence primary, key — by ref name. -/
def opsOrder (names : List String) : List String :=
  List.insertionSort pyStrLe
    (List.insertionSort (fun a b => refSegments a ≤ refSegments b) names)

/-! ## Claim-side definitions (written from the spec's words, for the
refinement claims C3 and C7) -/

/-- Claim C3's first-match origin loop: security when the origin is
Ubuntu with a `-security` archive, or Debian with a `-Security` label, or
the source name is a browser package (`browserHit` abstracts that fixed
per-package test); unstable when the origin is linuxmint with component
romeo; otherwise keep scanning. -/
def claimOriginLoop (browserHit : Bool) : List PkgOrigin → String
  | [] => "package"
  | o :: rest =>
    if (o.origin = "Ubuntu" ∧ strHas "-security" o.archive = true)
        ∨ (o.origin = "Debian" ∧ strHas "-Security" o.label = true)
        ∨ browserHit = true then "security"
    else if o.origin = "linuxmint" ∧ o.component = "romeo" then "unstable"
    else claimOriginLoop browserHit rest

/-- Claim C3 as stated: the browser rule reads "the source name", i.e.
the update's `sourceName` attribute (the alias when given, else the real
source name); the kernel check runs last and overrides. -/
def claimUrgency (pkg : AptPackage) (source_name : Option String) : String :=
  let srcAttr := match source_name with | some s => s | none => pkg.source_name
  if kernelCheck pkg then "kernel"
  else claimOriginLoop (decide (srcAttr ∈ ["firefox", "thunderbird", "chromium"])) pkg.origins

/-- Claim C3 amended: the browser rule reads the optional alias argument
itself, so it never fires when no alias was passed. -/
def claimUrgencyAlias (pkg : AptPackage) (source_name : Option String) : String :=
  if kernelCheck pkg then "kernel"
  else
    claimOriginLoop
      (decide (source_name = some "firefox" ∨ source_name = some "thunderbird" ∨
        source_name = some "chromium"))
      pkg.origins

/-- Claim C7 as stated: bookkeeping, then the replacement rules a-d in
order with the first applicable rule winning and no further guard. -/
def claim_add_package (u0 : Update) (pkg : AptPackage) : Update :=
  let u := { u0 with
      package_names := u0.package_names ++ [pkg.name]
      source_packages := setAdd u0.source_packages (pkg.source_name ++ "=" ++ pkg.source_version)
      size := u0.size + pkg.size }
  if u.main_package_name = none ∨ pkg.name = u.source_name then
    u.overwrite_main_package pkg
  else if mainSuffixes.any (fun suf => strTrails suf u.mainName && !strTrails suf pkg.name) then
    u.overwrite_main_package pkg
  else if ["lib", "gir1.2"].any (fun p => strLeads p u.mainName && !strLeads p pkg.name) then
    u.overwrite_main_package pkg
  else if ["-locale-", "-l10n-", "-help-"].any
      (fun kw => strHas kw u.mainName && !strHas kw pkg.name) then
    u.overwrite_main_package pkg
  else u

/-- Claim C7 amended: identical to the claim except that rules b-d only
apply when the current main package name differs from `sourceName` (a
main equal to the source name is never displaced). -/
def claim_add_package_guarded (u0 : Update) (pkg : AptPackage) : Update :=
  let u := { u0 with
      package_names := u0.package_names ++ [pkg.name]
      source_packages := setAdd u0.source_packages (pkg.source_name ++ "=" ++ pkg.source_version)
      size := u0.size + pkg.size }
  if u.main_package_name = none ∨ pkg.name = u.source_name then
    u.overwrite_main_package pkg
  else if u.main_package_name = some u.source_name then u
  else if mainSuffixes.any (fun suf => strTrails suf u.mainName && !strTrails suf pkg.name) then
    u.overwrite_main_package pkg
  else if ["lib", "gir1.2"].any (fun p => strLeads p u.mainName && !strLeads p pkg.name) then
    u.overwrite_main_package pkg
  else if ["-locale-", "-l10n-", "-help-"].any
      (fun kw => strHas kw u.mainName && !strHas kw pkg.name) then
    u.overwrite_main_package pkg
  else u

/-! ## Cleanliness predicates for the wire-format round trip -/

/-- A character the wire format carries without in-band collision: not
the `#` of the field separator and not the `&` that starts an entity
reference.  Non-ASCII characters are fine — they travel as decimal
character references and are decoded back on parse. -/
def cleanChar (c : Char) : Prop := c ≠ '#' ∧ c ≠ '&'

instance (c : Char) : Decidable (cleanChar c) :=
  inferInstanceAs (Decidable (c ≠ '#' ∧ c ≠ '&'))

/-- A text field safe under escaping, unescaping and `###`-splitting. -/
def cleanStr (s : String) : Prop := ∀ c ∈ s.data, cleanChar c

instance (s : String) : Decidable (cleanStr s) :=
  inferInstanceAs (Decidable (∀ c ∈ s.data, cleanChar c))

/-- A collection element additionally free of the `,` that starts the
`", "` join separator. -/
def cleanElem (s : String) : Prop := cleanStr s ∧ ',' ∉ s.data

instance (s : String) : Decidable (cleanElem s) :=
  inferInstanceAs (Decidable (cleanStr s ∧ ',' ∉ s.data))

/-! ## Concrete fixtures for counterexamples and witnesses -/

/-- A tracker mid-run: one day since the last persisted check, one
record pending for five days. -/
def c1Tracker : UpdateTracker :=
  { updates := [("foo", { type := "package", since := "2024.01.01", days := 5 })]
    version := 1, checked := "2024.01.01", notified := "2024.01.01"
    refreshed_update_names := [], today := "2024.01.02", max_days := 0
    oldest_since_date := "2024.01.02", active := true, security_only := false
    test_mode := false }

/-- A logical update observed (twice) for the software `foo`. -/
def c1Observed : ObservedUpdate := { real_source_name := "foo", type := "package" }

/-- A fully populated logical update with plain ASCII fields. -/
def c2Update : Update :=
  { display_name := "vim", source_name := "vim", real_source_name := "vim"
    source_packages := ["vim=2:9.0"], main_package_name := some "vim"
    package_names := ["vim", "vim-common"], new_version := "2:9.0"
    old_version := "2:8.2", size := 1234, type := "package", origin := "ubuntu"
    short_description := "editor", description := "Vi IMproved"
    site := "archive.ubuntu.com", archive := "noble" }

/-- A fully populated logical update with unicode text in several
fields, exercising the character-reference escaping on the wire. -/
def c2UnicodeUpdate : Update :=
  { display_name := "café", source_name := "café", real_source_name := "café"
    source_packages := ["café=1.0"], main_package_name := some "café"
    package_names := ["café", "café-döc"], new_version := "1.0"
    old_version := "0.9", size := 42, type := "package", origin := "ubuntu"
    short_description := "éditeur Ω", description := "Ünïcode — survives"
    site := "archive.ubuntu.com", archive := "noble" }

/-- A firefox package offered with no alias argument: its real source
name is `firefox` but the constructor's `source_name` parameter is
`None`. -/
def c3Pkg : AptPackage :=
  { name := "firefox", source_name := "firefox", source_version := "1"
    candidate_version := "2", installed_version := some "1", size := 10
    section_ := "web", raw_description := "ff", description := "ff"
    origins := [{ origin := "Mozilla", site := "s", archive := "a", label := "l", component := "c" }] }

/-- Scenario B of the spec: `linux-headers-5.15.0-generic` with section
`admin`. -/
def c3KernelPkg : AptPackage :=
  { name := "linux-headers-5.15.0-generic", source_name := "linux-hwe"
    source_version := "5.15.0", candidate_version := "5.15.0-91"
    installed_version := some "5.15.0-90", size := 10, section_ := "admin"
    raw_description := "", description := ""
    origins := [{ origin := "Ubuntu", site := "s", archive := "jammy", label := "l", component := "main" }] }

/-- Collaborator values for scenario C: every date lies 100 days back,
the update button was pressed 50 days ago, the apt log is silent. -/
def c4Env : DateEnv :=
  { days_since := fun _ _ => 100, days_since_ts := fun _ => 50, latest_apt_upgrade := none }

/-- Collaborator values for scenario D: as scenario C but the update
button was pressed one day ago. -/
def c4EnvManual : DateEnv :=
  { days_since := fun _ _ => 100, days_since_ts := fun _ => 1, latest_apt_upgrade := none }

/-- Scenario C/D configuration: threshold 14 days, grace period 3. -/
def c4Settings : TrackerSettings :=
  { tracker_disable := false, tracker_days_between := 2, tracker_max_days := 14
    tracker_max_age := 60, tracker_grace_period := 3, install_last_run := 1700000000 }

/-- Scenario C/D tracker: 14 days pending. -/
def c4Tracker : UpdateTracker :=
  { updates := [], version := 1, checked := "2024.01.01", notified := "2024.01.01"
    refreshed_update_names := [], today := "2024.01.15", max_days := 14
    oldest_since_date := "2024.01.01", active := true, security_only := false
    test_mode := false }

/-- Two candidate ref names: a two-segment name sorting after a deeper
four-segment name. -/
def c5Names : List String := ["b.c", "a.b.c.d"]

/-- An app whose ref name does not start with the letters `app`. -/
def c6AppUpdate : WorkerUpdate :=
  { ref := { kind := "app", name := "org.gnome.Calculator", arch := "x86_64", branch := "stable" }
    metadata :=
      { entries := [(("Runtime", "runtime"), "org.gnome.Platform/x86_64/45")], groups := [] } }

/-- A runtime (not its own runtime dependency) whose ref name happens to
start with the letters `app`. -/
def c6RuntimeUpdate : WorkerUpdate :=
  { ref := { kind := "runtime", name := "appstream.helper", arch := "x86_64", branch := "stable" }
    metadata :=
      { entries := [(("Runtime", "runtime"), "org.gnome.Platform/x86_64/45")], groups := [] } }

/-- A logical update whose chosen main package equals its source name
and carries the `lib` name pattern. -/
def c7Update : Update :=
  { display_name := "libfoo", source_name := "libfoo", real_source_name := "libfoo"
    source_packages := ["libfoo=1"], main_package_name := some "libfoo"
    package_names := ["libfoo"], new_version := "2", old_version := "1", size := 5
    type := "package", origin := "", short_description := "lib", description := "lib"
    site := "", archive := "" }

/-- A non-library package of the same source arriving second. -/
def c7Pkg : AptPackage :=
  { name := "foo", source_name := "libfoo", source_version := "2"
    candidate_version := "2", installed_version := some "1", size := 7
    section_ := "libs", raw_description := "tool", description := "tool long", origins := [] }

/-- A persisted state with a schema version older than expected. -/
def c9Bad : PersistedTracker :=
  { updates := [], version := 0, checked := "2024.01.01", notified := "2024.01.01" }

/-- Collaborator values for C10: nonzero timestamps and nonempty dates
all resolve to 100 days back. -/
def c10Env : DateEnv :=
  { days_since := fun _ _ => 100, days_since_ts := fun _ => 100, latest_apt_upgrade := none }

/-- Thresholds met, the update button never pressed, grace period
exactly 999. -/
def c10GraceSettings : TrackerSettings :=
  { tracker_disable := false, tracker_days_between := 2, tracker_max_days := 14
    tracker_max_age := 60, tracker_grace_period := 999, install_last_run := 0 }

/-- As `c10GraceSettings` with grace period 998. -/
def c10GraceSettingsBelow : TrackerSettings :=
  { c10GraceSettings with tracker_grace_period := 998 }

/-- A tracker that has never notified (`notified` empty), 14 days
pending. -/
def c10Tracker : UpdateTracker :=
  { updates := [], version := 1, checked := "2024.01.01", notified := ""
    refreshed_update_names := [], today := "2024.01.15", max_days := 14
    oldest_since_date := "2024.01.01", active := true, security_only := false
    test_mode := false }

/-! ## Theorems -/

/-- Storing a record makes it the one found for its key. -/
theorem lookupRec_setRec_self (l : List (String × TrackedRecord)) (k : String)
    (v : TrackedRecord) : lookupRec (setRec l k v) k = some v := by
  induction l with
  | nil => simp [setRec, lookupRec]
  | cons hd tl ih =>
    obtain ⟨k0, v0⟩ := hd
    by_cases h : k0 = k
    · simp [setRec, lookupRec, h]
    · simp [setRec, lookupRec, h, ih]

/-- C1 (amended): each `UpdateTracker.update` call stores a record for
the observed real source name whose `days` counter is 1 when the name was
untracked, and otherwise the previous counter incremented by 1 exactly
when `checkedDate < today` — so within one run (where `checked` is not
advanced) every further observation of an already-tracked name increments
the counter again, and the claimed at-most-one-increment bound holds only
when each name is observed at most once per run. -/
theorem c1_observe_days (t : UpdateTracker) (u : ObservedUpdate) :
    (t.update u).daysOf u.real_source_name =
      some (match t.daysOf u.real_source_name with
            | none => 1
            | some d => if strGt t.today t.checked then d + 1 else d) := by
  unfold UpdateTracker.update UpdateTracker.daysOf
  cases h : lookupRec t.updates u.real_source_name <;>
    · simp only [h]
      split <;> simp [lookupRec_setRec_self]

/-- C1 (counterexample): observing the same software twice in one run
(today strictly after the persisted `checked` date) increments its
`days` counter twice — from 5 to 7 — contradicting the claimed
at-most-one increment per run. -/
theorem c1_counterexample :
    c1Tracker.daysOf "foo" = some 5 ∧
    ((c1Tracker.update c1Observed).update c1Observed).daysOf "foo" = some 7 ∧
    ¬ (7 ≤ 5 + 1) := by decide

/-- C9 (confirmed): a persisted state that is missing or unreadable
(`load = none`), schema-older, or dated in the future is discarded:
initialization returns the fresh state with an empty updates map and both
dates stamped with today, and — being a total function — propagates no
exception. -/
theorem c9_fresh_on_invalid (load : Option PersistedTracker) (today : String)
    (h : load = none ∨ ∃ d, load = some d ∧
      (d.version < trackerVersion ∨ strGt d.checked today = true ∨
        strGt d.notified today = true)) :
    initializeTracker load today = (freshTracker today, true) ∧
    (initializeTracker load today).1.updates = [] ∧
    (initializeTracker load today).1.checked = today ∧
    (initializeTracker load today).1.notified = today := by
  have hfresh : initializeTracker load today = (freshTracker today, true) := by
    rcases h with h | ⟨d, rfl, hd⟩
    · rw [h]; rfl
    · simp only [initializeTracker]
      rw [if_pos hd]
  refine ⟨hfresh, ?_, ?_, ?_⟩ <;> rw [hfresh] <;> rfl

/-- C9 (witness): a state with schema version 0 is discarded in favor of
the fresh state. -/
theorem c9_witness :
    initializeTracker (some c9Bad) "2024.01.01" = (freshTracker "2024.01.01", true) ∧
    (initializeTracker (some c9Bad) "2024.01.01").1.updates = [] ∧
    (initializeTracker (some c9Bad) "2024.01.01").1.checked = "2024.01.01" ∧
    (initializeTracker (some c9Bad) "2024.01.01").1.notified = "2024.01.01" :=
  c9_fresh_on_invalid (some c9Bad) "2024.01.01"
    (Or.inr ⟨c9Bad, rfl, Or.inl (by decide)⟩)

/-- C6 (code bug): `is_base_package` tests whether the ref NAME starts
with the letters `app` instead of testing the ref's kind: the app
`org.gnome.Calculator` (kind app, hence `flatpak_type = "app"`) is not
recognized as a base package, while the runtime `appstream.helper` —
whose declared runtime dependency is not itself — is. -/
theorem c6_kind_ignored :
    is_base_package c6AppUpdate = false ∧
    c6AppUpdate.flatpak_type = "app" ∧
    is_base_package c6RuntimeUpdate = true ∧
    c6RuntimeUpdate.flatpak_type = "runtime" ∧
    ((c6RuntimeUpdate.metadata.get_string "Runtime" "runtime").bind
        (fun rt => flatpakRefParse ("runtime/" ++ rt))).map FlatpakRef.name ≠
      some c6RuntimeUpdate.ref_name := by decide

/-- C10 (amended): the empty date string and the zero timestamp map to
the sentinel 999; consequently a never-pressed update button
(`install-last-run = 0`) cannot trigger the manual-run suppression for
any grace period STRICTLY below 999 (at exactly 999 the sentinel itself
falls inside the grace window), and an empty notified date cannot trigger
the rate limit for any interval not exceeding 999. -/
theorem c10_sentinels :
    (∀ (env : DateEnv) (fmt : String), get_days_since_date env "" fmt = 999) ∧
    (∀ env : DateEnv, get_days_since_timestamp env 0 = 999) ∧
    (∀ (env : DateEnv) (s : TrackerSettings), s.install_last_run = 0 →
      s.tracker_grace_period < 999 → manualSuppressed env s = false) ∧
    (∀ (env : DateEnv) (s : TrackerSettings) (t : UpdateTracker), t.notified = "" →
      s.tracker_days_between ≤ 999 → t.rate_limited env s = false) := by
  refine ⟨fun env fmt => rfl, fun env => rfl, ?_, ?_⟩
  · intro env s h0 hg
    simp only [manualSuppressed, get_days_since_timestamp, h0]
    simp only [ne_eq, not_true_eq_false, if_false, decide_eq_false_iff_not, not_le]
    exact hg
  · intro env s t hn hi
    simp only [UpdateTracker.rate_limited, get_days_since_date, hn]
    simp only [ne_eq, not_true_eq_false, if_false, decide_eq_false_iff_not, not_lt]
    exact hi

/-- C10 (witness): the sentinel facts and both non-triggering cases at a
concrete configuration (grace period 998, interval 2). -/
theorem c10_witness :
    get_days_since_date c10Env "" "%Y.%m.%d" = 999 ∧
    get_days_since_timestamp c10Env 0 = 999 ∧
    manualSuppressed c10Env c10GraceSettingsBelow = false ∧
    c10Tracker.rate_limited c10Env c10GraceSettingsBelow = false :=
  ⟨c10_sentinels.1 c10Env "%Y.%m.%d", c10_sentinels.2.1 c10Env,
    c10_sentinels.2.2.1 c10Env c10GraceSettingsBelow rfl (by decide),
    c10_sentinels.2.2.2 c10Env c10GraceSettingsBelow c10Tracker rfl (by decide)⟩

/-- C10 (counterexample): with `install-last-run = 0` and a grace period
of exactly 999 — a value the claim's "not exceeding 999" admits — the
sentinel 999 satisfies `999 <= grace`, the manual-run suppression fires,
and `notify` returns false although every notification threshold is met;
lowering the grace period to 998 flips the result to true. -/
theorem c10_counterexample :
    c10GraceSettings.install_last_run = 0 ∧
    c10GraceSettings.tracker_grace_period = 999 ∧
    (c10Tracker.notify c10Env c10GraceSettings).1 = false ∧
    (c10Tracker.notify c10Env c10GraceSettingsBelow).1 = true := by decide

/-- C4 (confirmed): outside test mode, with notifications enabled and
the notification interval satisfied, a tracker whose `maxDaysPending`
reaches the max-days threshold notifies when neither the recorded manual
install run nor an apt-log upgrade lies within the grace period
(scenario C); with the same thresholds met but the manual install run 1
day ago against a grace period of 3 days, it does not (scenario D). -/
theorem c4_notify_scenarios :
    (∀ (env : DateEnv) (s : TrackerSettings) (t : UpdateTracker),
      t.test_mode = false →
      s.tracker_disable = false →
      s.tracker_days_between ≤ get_days_since_date env t.notified "%Y.%m.%d" →
      s.tracker_max_days ≤ (t.max_days : Int) →
      s.tracker_grace_period < get_days_since_timestamp env s.install_last_run →
      (∀ d, env.latest_apt_upgrade = some d →
        s.tracker_grace_period < get_days_since_date env d "%Y-%m-%d") →
      (t.notify env s).1 = true) ∧
    (∀ (env : DateEnv) (s : TrackerSettings) (t : UpdateTracker),
      t.test_mode = false →
      s.tracker_disable = false →
      s.tracker_days_between ≤ get_days_since_date env t.notified "%Y.%m.%d" →
      s.tracker_max_days ≤ (t.max_days : Int) →
      get_days_since_timestamp env s.install_last_run = 1 →
      s.tracker_grace_period = 3 →
      (t.notify env s).1 = false) := by
  constructor
  · intro env s t htest hdis hrate hmax hman hapt
    have hrl : t.rate_limited env s = false := by
      simp only [UpdateTracker.rate_limited, decide_eq_false_iff_not, not_lt]
      exact hrate
    have hms : manualSuppressed env s = false := by
      simp only [manualSuppressed, decide_eq_false_iff_not, not_le]
      exact hman
    simp only [UpdateTracker.notify, hdis, hrl, htest, Bool.false_eq_true, if_false]
    cases hlog : env.latest_apt_upgrade with
    | none =>
      simp only [hms, Bool.false_eq_true, if_false]
      rw [if_pos hmax]
      simp
    | some d =>
      have h := hapt d hlog
      simp only [hms, Bool.false_eq_true, if_false]
      rw [if_neg (not_le.mpr h), if_pos hmax]
      simp
  · intro env s t htest hdis hrate hmax hman hgrace
    have hrl : t.rate_limited env s = false := by
      simp only [UpdateTracker.rate_limited, decide_eq_false_iff_not, not_lt]
      exact hrate
    have hms : manualSuppressed env s = true := by
      simp only [manualSuppressed, decide_eq_true_eq]
      rw [hman, hgrace]
      norm_num
    simp [UpdateTracker.notify, hdis, hrl, htest, hms]

/-- C4 (witness): scenarios C and D at concrete inputs — 14 days
pending against a 14-day threshold notifies; a manual run 1 day ago with
grace period 3 suppresses. -/
theorem c4_witness :
    (c4Tracker.notify c4Env c4Settings).1 = true ∧
    (c4Tracker.notify c4EnvManual c4Settings).1 = false :=
  ⟨c4_notify_scenarios.1 c4Env c4Settings c4Tracker rfl rfl (by decide) (by decide)
      (by decide) (fun d h => by simp [c4Env] at h),
    c4_notify_scenarios.2 c4EnvManual c4Settings c4Tracker rfl rfl (by decide) (by decide)
      (by decide) rfl⟩

set_option maxHeartbeats 1000000 in
/-- The urgency computed by the origin loop of `Update.__init__` agrees
with the claim-side first-match loop keyed on the alias parameter,
whatever the accumulator values. -/
theorem originScan_type (src : Option String) (os : List PkgOrigin) :
    ∀ o s a, (originScan src "package" o s a os).1 =
      claimOriginLoop
        (decide (src = some "firefox" ∨ src = some "thunderbird" ∨ src = some "chromium"))
        os := by
  induction os with
  | nil => intro o s a; rfl
  | cons hd tl ih =>
    intro o s a
    simp only [originScan, claimOriginLoop, decide_eq_true_eq]
    split_ifs <;> first | (apply ih) | rfl | tauto

/-- C3 (counterexample): a package whose real source name is `firefox`
built with no alias argument is classified `package` by the code — the
browser rule reads the alias parameter, which is `None` — while the
claim's reading of "the source name" (the update's source name, here
`firefox`) demands `security`. -/
theorem c3_counterexample :
    (Update.fromPackage c3Pkg none).type = "package" ∧
    claimUrgency c3Pkg none = "security" ∧
    (Update.fromPackage c3Pkg none).type ≠ claimUrgency c3Pkg none := by decide

/-- C3 (amended): for every package whose candidate version differs from
the installed one, the urgency assigned by `Update.__init__` is exactly
the first-match origin classification (security by Ubuntu `-security`
archive, Debian `-Security` label, or a browser ALIAS argument of
firefox/thunderbird/chromium; unstable by linuxmint/romeo) with the
kernel check run last and overriding any security/unstable result. -/
theorem c3_urgency (pkg : AptPackage) (src : Option String)
    (h : pkg.candidate_version ≠ (match pkg.installed_version with | none => "" | some v => v)) :
    (Update.fromPackage pkg src).type = claimUrgencyAlias pkg src := by
  simp only [Update.fromPackage, claimUrgencyAlias]
  rw [if_pos h]
  by_cases hk : kernelCheck pkg
  · simp [hk]
  · simp only [hk, if_false]
    exact originScan_type src pkg.origins "" "" ""

/-- C3 (witness): scenario B — `linux-headers-5.15.0-generic` with
section `admin` is classified `kernel` by code and amended claim alike
(the name-prefix rule fires although the section is not `kernel`). -/
theorem c3_witness :
    (Update.fromPackage c3KernelPkg none).type = claimUrgencyAlias c3KernelPkg none ∧
    (Update.fromPackage c3KernelPkg none).type = "kernel" :=
  ⟨c3_urgency c3KernelPkg none (by decide), by decide⟩

/-- C5 (counterexample): with the candidate ref names `b.c` (two
segments) and `a.b.c.d` (four segments), the worker processes `a.b.c.d`
first: the second, name-keyed sort is the primary key, so the ref with
the strictly smaller segment count is NOT processed before the deeper
one as the claim requires. -/
theorem c5_counterexample :
    opsOrder c5Names = ["a.b.c.d", "b.c"] ∧
    refSegments "b.c" < refSegments "a.b.c.d" := by decide

/-- Python's string comparison never holds in both directions at once
(heads either differ strictly or the tails decide). -/
theorem listCharLt_irrefl (l : List Char) : listCharLt l l = false := by
  induction l with
  | nil => rfl
  | cons c cs ih => simp [listCharLt, lt_irrefl, ih]

/-- Python's string comparison is transitive. -/
theorem listCharLt_trans :
    ∀ a b c : List Char, listCharLt a b = true → listCharLt b c = true →
      listCharLt a c = true := by
  intro a
  induction a with
  | nil =>
    intro b c hab hbc
    cases b with
    | nil => simp [listCharLt] at hab
    | cons y ys =>
      cases c with
      | nil => simp [listCharLt] at hbc
      | cons z zs => simp [listCharLt]
  | cons x xs ih =>
    intro b c hab hbc
    cases b with
    | nil => simp [listCharLt] at hab
    | cons y ys =>
      cases c with
      | nil => simp [listCharLt] at hbc
      | cons z zs =>
        simp only [listCharLt] at hab hbc ⊢
        rcases lt_trichotomy x y with hxy | hxy | hxy
        · rcases lt_trichotomy y z with hyz | hyz | hyz
          · simp [lt_trans hxy hyz]
          · subst hyz; simp [hxy]
          · rw [if_neg (asymm hyz), if_neg (ne_of_gt hyz)] at hbc
            simp at hbc
        · subst hxy
          rw [if_neg (lt_irrefl x), if_pos rfl] at hab
          rcases lt_trichotomy x z with hyz | hyz | hyz
          · simp [hyz]
          · subst hyz
            rw [if_neg (lt_irrefl x), if_pos rfl] at hbc
            rw [if_neg (lt_irrefl x), if_pos rfl]
            exact ih ys zs hab hbc
          · rw [if_neg (asymm hyz), if_neg (ne_of_gt hyz)] at hbc
            simp at hbc
        · rw [if_neg (asymm hxy), if_neg (ne_of_gt hxy)] at hab
          simp at hab

/-- Python's string comparison is total: two lists are equal or strictly
comparable one way. -/
theorem listCharLt_total :
    ∀ a b : List Char, a = b ∨ listCharLt a b = true ∨ listCharLt b a = true := by
  intro a
  induction a with
  | nil =>
    intro b
    cases b with
    | nil => left; rfl
    | cons y ys => right; left; rfl
  | cons x xs ih =>
    intro b
    cases b with
    | nil => right; right; rfl
    | cons y ys =>
      rcases lt_trichotomy x y with hxy | hxy | hxy
      · right; left; simp [listCharLt, hxy]
      · subst hxy
        rcases ih ys with h | h | h
        · left; rw [h]
        · right; left; simp [listCharLt, lt_irrefl, h]
        · right; right; simp [listCharLt, lt_irrefl, h]
      · right; right; simp [listCharLt, hxy]

/-- C5 (amended): the processing order of `_process_fetch_task` is
sorted by ref name (the name sort runs last and is therefore the primary
key; the earlier segment-count sort only pre-arranges ties), and is a
permutation of the input refs. -/
theorem c5_order_sorted (names : List String) :
    (opsOrder names).Sorted pyStrLe ∧ (opsOrder names).Perm names := by
  haveI htr : IsTrans String pyStrLe := by
    constructor
    intro a b c hab hbc
    unfold pyStrLe at hab hbc ⊢
    by_contra h
    have hca : listCharLt c.data a.data = true := by
      cases hx : listCharLt c.data a.data
      · exact absurd hx h
      · rfl
    rcases listCharLt_total a.data b.data with he | hlt | hlt
    · rw [he] at hca
      rw [hca] at hbc
      cases hbc
    · have := listCharLt_trans _ _ _ hca hlt
      rw [this] at hbc
      cases hbc
    · rw [hlt] at hab
      cases hab
  haveI hto : IsTotal String pyStrLe := by
    constructor
    intro a b
    unfold pyStrLe
    rcases listCharLt_total b.data a.data with he | hlt | hlt
    · right
      rw [he, listCharLt_irrefl]
    · right
      cases hx : listCharLt a.data b.data
      · rfl
      · have := listCharLt_trans _ _ _ hlt hx
        rw [listCharLt_irrefl] at this
        cases this
    · left
      cases hx : listCharLt b.data a.data
      · rfl
      · have := listCharLt_trans _ _ _ hlt hx
        rw [listCharLt_irrefl] at this
        cases this
  constructor
  · exact List.sorted_insertionSort _ _
  · exact (List.perm_insertionSort _ _).trans (List.perm_insertionSort _ _)

/-- C7 (counterexample): when the current main package equals the source
name (`libfoo`), the code's guard skips rules b-d and keeps `libfoo` as
main even though the claim's rule (c) — current main starts with `lib`,
incoming `foo` does not — demands a replacement. -/
theorem c7_counterexample :
    (c7Update.add_package c7Pkg).main_package_name = some "libfoo" ∧
    (claim_add_package c7Update c7Pkg).main_package_name = some "foo" ∧
    c7Update.add_package c7Pkg ≠ claim_add_package c7Update c7Pkg := by decide

/-- C7 (amended): `add_package` applies the replacement rules in order
with the first applicable rule winning, where rules b-d additionally
require the current main package name to differ from `sourceName`; on
replacement the descriptions are overwritten from the new main package,
otherwise nothing changes beyond the bookkeeping. -/
theorem c7_add_package_rules (u : Update) (pkg : AptPackage) :
    u.add_package pkg = claim_add_package_guarded u pkg := by
  simp only [Update.add_package, claim_add_package_guarded, ne_eq]
  split_ifs <;> rfl

/-- Appending a common head leaves Python string comparison unchanged. -/
theorem listCharLt_append_right (J : List Char) {u v : List Char}
    (h : listCharLt u v = true) : listCharLt (J ++ u) (J ++ v) = true := by
  induction J with
  | nil => simpa using h
  | cons c cs ih => simpa [listCharLt, lt_irrefl] using ih

/-- Comparing two field lists that agree except in a final extra field
reduces to comparing those fields. -/
theorem keyLt_append_same (P : List (List Char)) (a b : List Char) :
    keyLt (P ++ [a]) (P ++ [b]) = listCharLt a b := by
  induction P with
  | nil =>
    by_cases he : a = b
    · subst he
      simp [keyLt, listCharLt_irrefl]
    · cases hx : listCharLt a b <;> simp [keyLt, hx, he]
  | cons p P ih => simpa [keyLt, listCharLt_irrefl] using ih

/-- Splitting on a single character distributes over an occurrence of
that character. -/
theorem chSplitGo_single_append (H : Char) (y : List Char) :
    ∀ x acc, chSplitGo [H] 0 acc (x ++ H :: y) = chSplitGo [H] 0 acc x ++ chSplit [H] y := by
  intro x
  induction x with
  | nil =>
    intro acc
    simp [chSplitGo, chSplit, leadsWith]
  | cons c x' ih =>
    intro acc
    by_cases hc : H = c
    · subst hc
      have h1 : leadsWith [H] (H :: (x' ++ H :: y)) = true := by simp [leadsWith]
      have h2 : leadsWith [H] (H :: x') = true := by simp [leadsWith]
      simp only [List.cons_append, chSplitGo, List.append_eq]
      rw [if_pos h1, if_pos h2]
      rw [show ([H].length - 1) = 0 from rfl]
      rw [ih []]
      rfl
    · have h1 : leadsWith [H] (c :: (x' ++ H :: y)) = false := by
        simp [leadsWith, beq_iff_eq, hc]
      have h2 : leadsWith [H] (c :: x') = false := by
        simp [leadsWith, beq_iff_eq, hc]
      simp only [List.cons_append, chSplitGo, List.append_eq]
      rw [if_neg (by simp [h1]), if_neg (by simp [h2])]
      exact ih (c :: acc)

/-- `split` on a single character, across one occurrence. -/
theorem chSplit_single_append (H : Char) (x y : List Char) :
    chSplit [H] (x ++ H :: y) = chSplit [H] x ++ chSplit [H] y :=
  chSplitGo_single_append H y x []

/-- Appending `-rc1` to a version string appends one `rc1` element to
its dot/dash element list. -/
theorem kvElements_append_rc1 (v : String) :
    kvElements (v ++ "-rc1") = kvElements v ++ [['r', 'c', '1']] := by
  unfold kvElements
  rw [String.data_append, List.map_append]
  have hmap : ("-rc1" : String).data.map (fun c => if c = '-' then '.' else c) =
      '.' :: ['r', 'c', '1'] := by decide
  rw [hmap, chSplit_single_append]
  congr 1

/-- Without an `rc` element the suffix marker is `"z"`. -/
theorem kvSuffixMark_of_norc (v : String)
    (h : ∀ x ∈ kvElements v, leadsWith ['r', 'c'] x = false) :
    kvSuffixMark v = ['z'] := by
  unfold kvSuffixMark
  have hfind : (kvElements v).find? (fun x => leadsWith ['r', 'c'] x) = none :=
    List.find?_eq_none.mpr (fun x hx => by simp [h x hx])
  rw [hfind]

/-- With `-rc1` appended (and no other `rc` element) the suffix marker
is `"rc1"`. -/
theorem kvSuffixMark_append_rc1 (v : String)
    (h : ∀ x ∈ kvElements v, leadsWith ['r', 'c'] x = false) :
    kvSuffixMark (v ++ "-rc1") = ['r', 'c', '1'] := by
  unfold kvSuffixMark
  rw [kvElements_append_rc1, List.find?_append]
  have hfind : (kvElements v).find? (fun x => leadsWith ['r', 'c'] x) = none :=
    List.find?_eq_none.mpr (fun x hx => by simp [h x hx])
  rw [hfind]
  rfl

/-- The `rc1` element is not numeric, so the padded numeric fields are
unchanged by appending `-rc1`. -/
theorem kvPadded_append_rc1 (v : String) : kvPadded (v ++ "-rc1") = kvPadded v := by
  unfold kvPadded
  rw [kvElements_append_rc1, List.filter_append]
  have hf : List.filter pyIsNumeric [['r', 'c', '1']] = [] := by decide
  rw [hf, List.append_nil]

/-- With at most four numeric elements the padded field list has exactly
four entries. -/
theorem kvPadded_length (v : String)
    (h : ((kvElements v).filter pyIsNumeric).length ≤ 4) : (kvPadded v).length = 4 := by
  unfold kvPadded
  simp only [List.length_append, List.length_map, List.length_replicate]
  omega

/-- C8 (amended): for a release version string `v1` with no `rc`
component and at most four numeric components (so that the synthesized
fifth tie-break field is produced), the comparison key of
`v1 ++ "-rc1"` sorts strictly below the key of `v1`.  (With five or more
numeric components the source synthesizes no suffix field and the two
keys coincide.) -/
theorem c8_rc_sorts_below (v : String)
    (hnorc : ∀ x ∈ kvElements v, leadsWith ['r', 'c'] x = false)
    (hlen : ((kvElements v).filter pyIsNumeric).length ≤ 4) :
    keyLt (kvVersionId (v ++ "-rc1")) (kvVersionId v) = true := by
  unfold kvVersionId
  rw [kvPadded_append_rc1, kvSuffixMark_of_norc v hnorc, kvSuffixMark_append_rc1 v hnorc]
  rw [if_pos (kvPadded_length v hlen), if_pos (kvPadded_length v hlen)]
  rw [keyLt_append_same]
  apply listCharLt_append_right
  decide

/-- C8 (witness): `5.15.0-rc1` sorts strictly below `5.15.0`. -/
theorem c8_witness : keyLt (kvVersionId ("5.15.0" ++ "-rc1")) (kvVersionId "5.15.0") = true :=
  c8_rc_sorts_below "5.15.0" (by decide) (by decide)

/-- C8 (counterexample): the release `5.15.0.91.88` has five numeric
components, so its key gets no suffix field and equals the key of
`5.15.0.91.88-rc1`: the claimed strict ordering fails although `v1`
carries no rc component. -/
theorem c8_counterexample :
    (∀ x ∈ kvElements "5.15.0.91.88", leadsWith ['r', 'c'] x = false) ∧
    kvVersionId ("5.15.0.91.88" ++ "-rc1") = kvVersionId "5.15.0.91.88" ∧
    keyLt (kvVersionId ("5.15.0.91.88" ++ "-rc1")) (kvVersionId "5.15.0.91.88") = false := by
  decide

/-- A string is determined by its character list. -/
theorem strMkData (s : String) : (⟨s.data⟩ : String) = s := by
  cases s
  rfl

/-- ASCII-only text passes `xmlcharrefreplace` encoding untouched. -/
theorem pyEscape_of_ascii : ∀ l : List Char, (∀ c ∈ l, c.toNat ≤ 127) → pyEscape l = l := by
  intro l
  induction l with
  | nil => intro _; rfl
  | cons c rest ih =>
    intro h
    have hc : c.toNat ≤ 127 := h c (by simp)
    have hr := ih (fun x hx => h x (by simp [hx]))
    simp [pyEscape, hc, hr]

/-- Ampersand-free text passes `html.unescape` untouched. -/
theorem pyUnescapeGo_noamp : ∀ l : List Char, (∀ c ∈ l, c ≠ '&') → pyUnescapeGo 0 l = l := by
  intro l
  induction l with
  | nil => intro _; rfl
  | cons c rest ih =>
    intro h
    have hc : c ≠ '&' := h c (by simp)
    have hr := ih (fun x hx => h x (by simp [hx]))
    simp only [pyUnescapeGo]
    rw [if_neg hc, hr]

/-- A pending skip of `l.length` characters consumes exactly `l`. -/
theorem chSplitGo_skip (sep : List Char) :
    ∀ (l : List Char) (acc rest : List Char),
      chSplitGo sep l.length acc (l ++ rest) = chSplitGo sep 0 acc rest := by
  intro l
  induction l with
  | nil => intro acc rest; rfl
  | cons c l' ih =>
    intro acc rest
    simp only [List.cons_append, List.length_cons, chSplitGo]
    exact ih acc rest

/-- Every list starts with itself. -/
theorem leadsWith_self_append : ∀ p l : List Char, leadsWith p (p ++ l) = true := by
  intro p
  induction p with
  | nil => intro l; rfl
  | cons a p' ih => intro l; simp [leadsWith, ih]

/-- Scanning a group free of the separator's first character, followed
by the separator: the group is closed and scanning resumes after the
separator. -/
theorem chSplitGo_field (H : Char) (srest : List Char) :
    ∀ f : List Char, (∀ c ∈ f, c ≠ H) → ∀ acc rest : List Char,
      chSplitGo (H :: srest) 0 acc (f ++ (H :: (srest ++ rest))) =
        (acc.reverse ++ f) :: chSplitGo (H :: srest) 0 [] rest := by
  intro f
  induction f with
  | nil =>
    intro _ acc rest
    simp only [List.nil_append]
    have hl : leadsWith (H :: srest) (H :: (srest ++ rest)) = true := by
      have := leadsWith_self_append (H :: srest) rest
      simpa using this
    simp only [chSplitGo]
    rw [if_pos hl]
    rw [show ((H :: srest).length - 1) = srest.length from by simp]
    rw [chSplitGo_skip (H :: srest) srest [] rest]
    simp
  | cons a f' ih =>
    intro hf acc rest
    have ha : (H == a) = false := beq_eq_false_iff_ne.mpr (Ne.symm (hf a (by simp)))
    simp only [List.cons_append]
    simp only [chSplitGo]
    rw [if_neg (by simp [leadsWith, ha])]
    rw [ih (fun c hc => hf c (by simp [hc])) (a :: acc) rest]
    simp

/-- Scanning a final group free of the separator's first character
closes the line with that group. -/
theorem chSplitGo_last (H : Char) (srest : List Char) :
    ∀ f : List Char, (∀ c ∈ f, c ≠ H) → ∀ acc : List Char,
      chSplitGo (H :: srest) 0 acc f = [acc.reverse ++ f] := by
  intro f
  induction f with
  | nil => intro _ acc; simp [chSplitGo]
  | cons a f' ih =>
    intro hf acc
    have ha : (H == a) = false := beq_eq_false_iff_ne.mpr (Ne.symm (hf a (by simp)))
    simp only [chSplitGo]
    rw [if_neg (by simp [leadsWith, ha])]
    rw [ih (fun c hc => hf c (by simp [hc])) (a :: acc)]
    simp

/-- Splitting `f ++ sepCat fs` on `###` when no field contains `#`. -/
theorem chSplit_cat_cons :
    ∀ fs : List (List Char), ∀ f : List Char, (∀ c ∈ f, c ≠ '#') →
      (∀ g ∈ fs, ∀ c ∈ g, c ≠ '#') →
      chSplitGo sep3 0 [] (f ++ sepCat fs) = f :: fs := by
  intro fs
  induction fs with
  | nil =>
    intro f hf _
    simp only [sepCat, List.append_nil]
    rw [show sep3 = '#' :: ['#', '#'] from rfl]
    rw [chSplitGo_last '#' ['#', '#'] f hf []]
    simp
  | cons g gs ih =>
    intro f hf hgs
    have hshape : f ++ sepCat (g :: gs) = f ++ ('#' :: (['#', '#'] ++ (g ++ sepCat gs))) := by
      simp [sepCat, sep3, List.append_assoc]
    rw [hshape]
    rw [show sep3 = '#' :: ['#', '#'] from rfl]
    rw [chSplitGo_field '#' ['#', '#'] f hf [] (g ++ sepCat gs)]
    simp only [List.reverse_nil, List.nil_append]
    congr 1
    exact ih g (hgs g (by simp)) (fun x hx => hgs x (by simp [hx]))

/-- Splitting the serialized record on `###` recovers the empty leading
group and the fields, provided no field contains `#`. -/
theorem chSplit_sepCat (fs : List (List Char)) (h : ∀ g ∈ fs, ∀ c ∈ g, c ≠ '#') :
    chSplit sep3 (sepCat fs) = [] :: fs := by
  cases fs with
  | nil => rfl
  | cons g gs =>
    show chSplitGo sep3 0 [] (sepCat (g :: gs)) = [] :: g :: gs
    rw [show sepCat (g :: gs) = [] ++ sepCat (g :: gs) from rfl]
    rw [chSplit_cat_cons (g :: gs) [] (by simp) h]

/-- Splitting `", ".join(es)` on `", "` recovers the elements, provided
the collection is non-empty and no element contains a comma. -/
theorem chSplit_commaJoin :
    ∀ es : List (List Char), es ≠ [] → (∀ e ∈ es, ∀ c ∈ e, c ≠ ',') →
      chSplit sepComma (commaJoin es) = es := by
  intro es
  induction es with
  | nil => intro h _; cases h rfl
  | cons e es' ih =>
    intro _ hc
    cases es' with
    | nil =>
      show chSplitGo sepComma 0 [] (commaJoin [e]) = [e]
      rw [show commaJoin [e] = e from rfl]
      rw [show sepComma = ',' :: [' '] from rfl]
      rw [chSplitGo_last ',' [' '] e (hc e (by simp)) []]
      simp
    | cons g gs =>
      show chSplitGo sepComma 0 [] (commaJoin (e :: g :: gs)) = e :: g :: gs
      have hshape : commaJoin (e :: g :: gs) = e ++ (',' :: ([' '] ++ commaJoin (g :: gs))) := by
        simp [commaJoin, sepComma, List.append_assoc]
      rw [hshape]
      rw [show sepComma = ',' :: [' '] from rfl]
      rw [chSplitGo_field ',' [' '] e (hc e (by simp)) [] (commaJoin (g :: gs))]
      simp only [List.reverse_nil, List.nil_append]
      congr 1
      exact ih (by simp) (fun x hx => hc x (by simp [hx]))

/-- Characters of a `", "` join come from the elements or the separator. -/
theorem mem_commaJoin {c : Char} :
    ∀ es : List (List Char), c ∈ commaJoin es → c = ',' ∨ c = ' ' ∨ ∃ e ∈ es, c ∈ e := by
  intro es
  induction es with
  | nil => intro h; cases h
  | cons e es' ih =>
    cases es' with
    | nil =>
      intro h
      right; right
      exact ⟨e, by simp, h⟩
    | cons g gs =>
      intro h
      rw [show commaJoin (e :: g :: gs) = e ++ sepComma ++ commaJoin (g :: gs) from rfl] at h
      rcases List.mem_append.mp h with h1 | h2
      · rcases List.mem_append.mp h1 with h3 | h4
        · right; right; exact ⟨e, by simp, h3⟩
        · simp only [sepComma, List.mem_cons, List.not_mem_nil, or_false] at h4
          rcases h4 with h4 | h4
          · left; exact h4
          · right; left; exact h4
      · rcases ih h2 with h3 | h3 | h3
        · left; exact h3
        · right; left; exact h3
        · right; right
          obtain ⟨x, hx, hcx⟩ := h3
          exact ⟨x, by simp [hx], hcx⟩

/-- Characters of the serialized record body come from the separator or
a field. -/
theorem mem_sepCat {c : Char} :
    ∀ fs : List (List Char), c ∈ sepCat fs → c = '#' ∨ ∃ f ∈ fs, c ∈ f := by
  intro fs
  induction fs with
  | nil => intro h; cases h
  | cons f fs' ih =>
    intro h
    rw [show sepCat (f :: fs') = sep3 ++ f ++ sepCat fs' from rfl] at h
    rcases List.mem_append.mp h with h1 | h2
    · rcases List.mem_append.mp h1 with h3 | h4
      · simp only [sep3, List.mem_cons, List.not_mem_nil, or_false] at h3
        rcases h3 with h3 | h3 | h3 <;> (left; exact h3)
      · right; exact ⟨f, by simp, h4⟩
    · rcases ih h2 with h3 | ⟨x, hx, hcx⟩
      · left; exact h3
      · right; exact ⟨x, by simp [hx], hcx⟩

/-- Every digit produced by the divmod recursion is below 10. -/
theorem natDigitsF_lt : ∀ fuel n d : Nat, d ∈ natDigitsF fuel n → d < 10 := by
  intro fuel
  induction fuel with
  | zero => intro n d h; cases h
  | succ fuel ih =>
    intro n d h
    cases n with
    | zero => cases h
    | succ m =>
      simp only [natDigitsF, List.mem_cons] at h
      rcases h with h | h
      · subst h; exact Nat.mod_lt _ (by norm_num)
      · exact ih _ _ h

/-- Folding the most-significant-first digits with Horner's rule
recovers the number (with the accumulator scaled by the digit count). -/
theorem natDigitsF_foldl :
    ∀ fuel n acc : Nat, n ≤ fuel →
      List.foldl (fun a d => a * 10 + d) acc (natDigitsF fuel n).reverse =
        acc * 10 ^ (natDigitsF fuel n).length + n := by
  intro fuel
  induction fuel with
  | zero =>
    intro n acc h
    interval_cases n
    simp [natDigitsF]
  | succ fuel ih =>
    intro n acc h
    cases n with
    | zero => simp [natDigitsF]
    | succ m =>
      have hq : (m + 1) / 10 ≤ fuel := by
        have h1 : (m + 1) / 10 < m + 1 := Nat.div_lt_self (by omega) (by norm_num)
        omega
      simp only [natDigitsF, List.reverse_cons, List.foldl_append, List.length_cons,
        List.foldl_cons, List.foldl_nil]
      rw [ih ((m + 1) / 10) acc hq]
      rw [pow_succ]
      have hmod : 10 * ((m + 1) / 10) + (m + 1) % 10 = m + 1 := Nat.div_add_mod (m + 1) 10
      ring_nf
      omega

/-- The digit characters `0`-`9`: code point recovery, digit test,
wire-format cleanliness. -/
theorem digitChar_facts :
    ∀ d : Nat, d < 10 →
      (Char.ofNat (48 + d)).toNat - 48 = d ∧
      Char.isDigit (Char.ofNat (48 + d)) = true ∧
      cleanChar (Char.ofNat (48 + d)) ∧ Char.ofNat (48 + d) ≠ ',' := by decide

/-- Every character of `str(n)` is a clean non-comma digit. -/
theorem pyStrOfNat_chars (n : Nat) :
    ∀ c ∈ pyStrOfNatData n, Char.isDigit c = true ∧ cleanChar c ∧ c ≠ ',' := by
  intro c hc
  by_cases h0 : n = 0
  · subst h0
    rw [show pyStrOfNatData 0 = ['0'] from rfl] at hc
    simp only [List.mem_cons, List.not_mem_nil, or_false] at hc
    subst hc
    exact ⟨by decide, by decide, by decide⟩
  · simp only [pyStrOfNatData, if_neg h0, List.mem_map, List.mem_reverse] at hc
    obtain ⟨d, hd, rfl⟩ := hc
    have hlt := natDigitsF_lt n n d hd
    obtain ⟨-, h2, h3, h4⟩ := digitChar_facts d hlt
    exact ⟨h2, h3, h4⟩

/-- Python `int(str(n)) = n` for the non-negative sizes on the wire. -/
theorem pyIntData_pyStrOfNat (n : Nat) : pyIntData (pyStrOfNatData n) = some n := by
  by_cases h0 : n = 0
  · subst h0; decide
  · have hne : natDigitsF n n ≠ [] := by
      cases n with
      | zero => cases h0 rfl
      | succ m => simp [natDigitsF]
    have hall : (pyStrOfNatData n).all Char.isDigit = true := by
      rw [List.all_eq_true]
      intro c hc
      exact (pyStrOfNat_chars n c hc).1
    have hnonempty : pyStrOfNatData n ≠ [] := by
      simp only [pyStrOfNatData, if_neg h0]
      simp [hne]
    unfold pyIntData
    rw [hall]
    rw [show (pyStrOfNatData n).isEmpty = false from by
      cases hl : pyStrOfNatData n
      · exact absurd hl hnonempty
      · rfl]
    simp only [Bool.not_false, Bool.true_and, if_true]
    congr 1
    unfold digitsVal
    simp only [pyStrOfNatData, if_neg h0]
    rw [List.foldl_map]
    have hmem : ∀ (a d : Nat), d ∈ (natDigitsF n n).reverse →
        a * 10 + ((Char.ofNat (48 + d)).toNat - 48) = a * 10 + d := by
      intro a d hd
      rw [List.mem_reverse] at hd
      have := (digitChar_facts d (natDigitsF_lt n n d hd)).1
      omega
    rw [List.foldl_ext _ _ 0 hmem]
    rw [natDigitsF_foldl n n 0 (le_refl n)]
    simp

/-- The character list of a literally constructed string. -/
theorem dataMk (l : List Char) : (⟨l⟩ : String).data = l := rfl

/-- `str(n)` is never the empty string. -/
theorem pyStrOfNat_ne_nil (n : Nat) : pyStrOfNatData n ≠ [] := by
  by_cases h0 : n = 0
  · subst h0; decide
  · obtain ⟨m, rfl⟩ : ∃ m, n = m + 1 := ⟨n - 1, by omega⟩
    simp [pyStrOfNatData, natDigitsF]

/-- Decoding the digit characters of `str(n)` recovers `n`. -/
theorem digitsVal_pyStrOfNat (n : Nat) : digitsVal (pyStrOfNatData n) = n := by
  by_cases h0 : n = 0
  · subst h0; decide
  · unfold digitsVal
    simp only [pyStrOfNatData, if_neg h0]
    rw [List.foldl_map]
    have hmem : ∀ (a d : Nat), d ∈ (natDigitsF n n).reverse →
        a * 10 + ((Char.ofNat (48 + d)).toNat - 48) = a * 10 + d := by
      intro a d hd
      rw [List.mem_reverse] at hd
      have := (digitChar_facts d (natDigitsF_lt n n d hd)).1
      omega
    rw [List.foldl_ext _ _ 0 hmem]
    rw [natDigitsF_foldl n n 0 (le_refl n)]
    simp

/-- `xmlcharrefreplace` encoding distributes over concatenation. -/
theorem pyEscape_append : ∀ a b : List Char, pyEscape (a ++ b) = pyEscape a ++ pyEscape b := by
  intro a b
  induction a with
  | nil => rfl
  | cons c rest ih => simp [pyEscape, ih]

/-- A pending skip of `l.length` reference characters consumes exactly
`l`. -/
theorem pyUnescapeGo_skip : ∀ l z : List Char, pyUnescapeGo l.length (l ++ z) = pyUnescapeGo 0 z := by
  intro l
  induction l with
  | nil => intro z; rfl
  | cons c rest ih =>
    intro z
    simp only [List.cons_append, List.length_cons, pyUnescapeGo]
    exact ih z

/-- Scanning digits stops exactly at the terminating semicolon. -/
theorem takeWhile_isDigit_append (z : List Char) :
    ∀ digs : List Char, (∀ c ∈ digs, Char.isDigit c = true) →
      (digs ++ ';' :: z).takeWhile Char.isDigit = digs := by
  intro digs
  induction digs with
  | nil =>
    intro _
    have hs : Char.isDigit ';' = false := by decide
    simp [List.takeWhile_cons, hs]
  | cons d ds ih =>
    intro h
    rw [List.cons_append, List.takeWhile_cons, if_pos (h d (by simp))]
    rw [ih (fun c hc => h c (by simp [hc]))]

/-- `html.unescape` inverts `xmlcharrefreplace` on ampersand-free text:
ASCII characters pass through both untouched and every non-ASCII
character is encoded to a decimal reference and decoded back. -/
theorem pyUnescape_pyEscape : ∀ l : List Char, (∀ c ∈ l, c ≠ '&') →
    pyUnescapeGo 0 (pyEscape l) = l := by
  intro l
  induction l with
  | nil => intro _; rfl
  | cons c rest ih =>
    intro h
    have hc : c ≠ '&' := h c (by simp)
    have hr := ih (fun x hx => h x (by simp [hx]))
    by_cases hA : c.toNat ≤ 127
    · rw [show pyEscape (c :: rest) = c :: pyEscape rest from by simp [pyEscape, hA]]
      simp only [pyUnescapeGo]
      rw [if_neg hc, hr]
    · have hD : ∀ x ∈ pyStrOfNatData c.toNat, Char.isDigit x = true :=
        fun x hx => (pyStrOfNat_chars _ x hx).1
      have hshape : pyEscape (c :: rest) =
          '&' :: '#' :: (pyStrOfNatData c.toNat ++ (';' :: pyEscape rest)) := by
        simp [pyEscape, hA]
      rw [hshape]
      have hempty : (pyStrOfNatData c.toNat).isEmpty = false := by
        cases hl : pyStrOfNatData c.toNat
        · exact absurd hl (pyStrOfNat_ne_nil _)
        · rfl
      have hamp : ampRef ('#' :: (pyStrOfNatData c.toNat ++ (';' :: pyEscape rest))) =
          some (c, (pyStrOfNatData c.toNat).length + 2) := by
        simp only [ampRef]
        rw [if_pos trivial]
        rw [takeWhile_isDigit_append _ _ hD]
        rw [hempty]
        rw [if_neg (by simp)]
        rw [List.drop_left]
        rw [if_pos (show (';' :: pyEscape rest).head? = some ';' from rfl)]
        rw [digitsVal_pyStrOfNat, Char.ofNat_toNat]
      simp only [pyUnescapeGo]
      rw [hamp]
      show c :: pyUnescapeGo ((pyStrOfNatData c.toNat).length + 2)
          ('#' :: (pyStrOfNatData c.toNat ++ (';' :: pyEscape rest))) = c :: rest
      congr 1
      rw [show ('#' :: (pyStrOfNatData c.toNat ++ (';' :: pyEscape rest))) =
          ('#' :: (pyStrOfNatData c.toNat ++ [';'])) ++ pyEscape rest from by
        simp [List.append_assoc]]
      rw [show (pyStrOfNatData c.toNat).length + 2 =
          ('#' :: (pyStrOfNatData c.toNat ++ [';'])).length from by
        simp only [List.length_cons, List.length_append, List.length_nil]]
      rw [pyUnescapeGo_skip]
      exact hr

/-- C2 (amended): parsing the serialized wire line with the trailing
`---EOL---` sentinel removed recovers the update field for field —
including the collections, returned as lists in serialization order, and
including arbitrary unicode text, which travels as decimal character
references and is decoded back — provided no field contains a literal
`#` or `&` (the in-band framing offers no escaping for those) and the
two collections are non-empty with comma-free elements. -/
theorem c2_parse_serialize (u : Update) (m : String)
    (hmain : u.main_package_name = some m) (hm : cleanStr m)
    (h0 : cleanStr u.display_name) (h1 : cleanStr u.source_name)
    (h2 : cleanStr u.real_source_name)
    (h6 : cleanStr u.new_version) (h7 : cleanStr u.old_version)
    (h9 : cleanStr u.type) (h10 : cleanStr u.origin)
    (h11 : cleanStr u.short_description) (h12 : cleanStr u.description)
    (h13 : cleanStr u.site) (h14 : cleanStr u.archive)
    (hsp : u.source_packages ≠ []) (hspc : ∀ e ∈ u.source_packages, cleanElem e)
    (hpn : u.package_names ≠ []) (hpnc : ∀ e ∈ u.package_names, cleanElem e) :
    Update.parse (stripEol (Update.serialize u)) = some u := by
  have hjoin1 : ∀ c ∈ commaJoin (u.source_packages.map String.data), cleanChar c := by
    intro c hc
    rcases mem_commaJoin _ hc with rfl | rfl | ⟨e, he, hce⟩
    · decide
    · decide
    · rw [List.mem_map] at he
      obtain ⟨x, hx, rfl⟩ := he
      exact (hspc x hx).1 c hce
  have hjoin2 : ∀ c ∈ commaJoin (u.package_names.map String.data), cleanChar c := by
    intro c hc
    rcases mem_commaJoin _ hc with rfl | rfl | ⟨e, he, hce⟩
    · decide
    · decide
    · rw [List.mem_map] at he
      obtain ⟨x, hx, rfl⟩ := he
      exact (hpnc x hx).1 c hce
  have hsize : ∀ c ∈ pyStrOfNatData u.size, cleanChar c :=
    fun c hc => (pyStrOfNat_chars _ c hc).2.1
  have hmr : mainNameRendered u = m.data := by
    unfold mainNameRendered
    rw [hmain]
  have hfields : ∀ f ∈ u.wireFields, ∀ c ∈ f, cleanChar c := by
    intro f hf
    simp only [Update.wireFields, List.mem_cons, List.not_mem_nil, or_false] at hf
    rcases hf with rfl | rfl | rfl | rfl | rfl | rfl | rfl | rfl | rfl | rfl | rfl | rfl |
      rfl | rfl | rfl
    · exact h0
    · exact h1
    · exact h2
    · exact hjoin1
    · rw [hmr]; exact hm
    · exact hjoin2
    · exact h6
    · exact h7
    · exact hsize
    · exact h9
    · exact h10
    · exact h11
    · exact h12
    · exact h13
    · exact h14
  have hnoamp : ∀ c ∈ sepCat u.wireFields, c ≠ '&' := by
    intro c hc
    rcases mem_sepCat _ hc with rfl | ⟨f, hf, hcf⟩
    · decide
    · exact (hfields f hf c hcf).2
  have hser : Update.serialize u = ⟨pyEscape (sepCat u.wireFields) ++ eolMark⟩ := by
    unfold Update.serialize
    rw [pyEscape_append, pyEscape_of_ascii eolMark (by decide)]
  have hstrip : stripEol (Update.serialize u) = ⟨pyEscape (sepCat u.wireFields)⟩ := by
    rw [hser]
    unfold stripEol
    rw [dataMk]
    congr 1
    have hl : (pyEscape (sepCat u.wireFields) ++ eolMark).length - eolMark.length =
        (pyEscape (sepCat u.wireFields)).length := by
      rw [List.length_append]
      omega
    rw [hl, List.take_left]
  rw [hstrip]
  unfold Update.parse
  rw [dataMk]
  rw [show pyUnescape (pyEscape (sepCat u.wireFields)) = sepCat u.wireFields from
    pyUnescape_pyEscape _ hnoamp]
  rw [chSplit_sepCat _ (fun g hg c hc => (hfields g hg c hc).1)]
  change parseFields u.display_name.data u.source_name.data u.real_source_name.data
    (commaJoin (u.source_packages.map String.data)) (mainNameRendered u)
    (commaJoin (u.package_names.map String.data)) u.new_version.data u.old_version.data
    (pyStrOfNatData u.size) u.type.data u.origin.data u.short_description.data
    u.description.data u.site.data u.archive.data = some u
  unfold parseFields
  rw [pyIntData_pyStrOfNat]
  have hcj1 : ∀ e ∈ u.source_packages.map String.data, ∀ c ∈ e, c ≠ ',' := by
    intro e he c hc heq
    rw [List.mem_map] at he
    obtain ⟨x, hx, rfl⟩ := he
    subst heq
    exact (hspc x hx).2 hc
  have hcj2 : ∀ e ∈ u.package_names.map String.data, ∀ c ∈ e, c ≠ ',' := by
    intro e he c hc heq
    rw [List.mem_map] at he
    obtain ⟨x, hx, rfl⟩ := he
    subst heq
    exact (hpnc x hx).2 hc
  have hne1 : u.source_packages.map String.data ≠ [] := by simpa using hsp
  have hne2 : u.package_names.map String.data ≠ [] := by simpa using hpn
  rw [hmr]
  rw [chSplit_commaJoin _ hne1 hcj1, chSplit_commaJoin _ hne2 hcj2]
  simp only [Option.map_some']
  simp only [List.map_map, Function.comp_def, strMkData, List.map_id, List.map_id']
  rw [← hmain]

/-- C2 (witness): the amended round trip at a concrete fully populated
update whose names and descriptions carry non-ASCII text, exercising the
character-reference escaping both ways. -/
theorem c2_witness :
    Update.parse (stripEol (Update.serialize c2UnicodeUpdate)) = some c2UnicodeUpdate :=
  c2_parse_serialize c2UnicodeUpdate "café" rfl (by decide) (by decide) (by decide)
    (by decide) (by decide) (by decide) (by decide) (by decide) (by decide) (by decide)
    (by decide) (by decide) (by decide) (by decide) (by decide) (by decide)

/-- C2 (counterexample): the claim's literal round trip fails on every
update — `parse` never strips the `---EOL---` sentinel `serialize`
appends, so the trailing archive field comes back with the sentinel
attached (here `noble---EOL---` instead of `noble`). -/
theorem c2_counterexample :
    Update.parse (Update.serialize c2Update) ≠ some c2Update ∧
    (Update.parse (Update.serialize c2Update)).map Update.archive =
      some (c2Update.archive ++ "---EOL---") := by decide

end MintUpdate
